import Mathlib

/-!
Shallow embedding of the concurrent reasoning-session store of
src/sequential-thinking/main.go (package main of the sequential-thinking
MCP server), together with proofs of the specified properties.

Modelling conventions:
* Go `int` fields become `Int` (the values involved never approach the
  64-bit range, so wrap-around is not modelled); `time.Time` becomes a
  `Nat` tick supplied as a `now` parameter to each operation (every call
  to `time.Now` inside one handler is modelled as the same instant).
* The Go map `map[string]*ThinkingSession` becomes a function
  `String -> Option ThinkingSession`; pointer aliasing through that map
  is modelled separately by an explicit heap (`StoreHeap`) where it
  matters (the read-isolation property).
* Handlers return their store effect and an `Except String` outcome; the
  rendered response text is presentation and is not modelled.
* `crypto/rand.Text()` is modelled by a `freshId` parameter.
-/

/-- A Thought models `Thought` of main.go: one step in the thinking
process, with a 1-based index, content, creation time, a revised flag
and an optional parent index. -/
structure Thought where
  index : Int
  content : String
  created : Nat
  revised : Bool
  parentIndex : Option Int
deriving DecidableEq, Repr, Inhabited

/-- A ThinkingSession models `ThinkingSession` of main.go: an active
thinking session with its ordered thoughts, progress counters, status
string ("active", "completed" or "paused"), timestamps, branch id list
and optimistic-concurrency version counter. -/
structure ThinkingSession where
  id : String
  problem : String
  thoughts : List Thought
  currentThought : Int
  estimatedTotal : Int
  status : String
  created : Nat
  lastActivity : Nat
  branches : List String
  version : Int
deriving DecidableEq, Repr, Inhabited

/-- Models `deepCopyThoughts` of main.go (lines 239-246): copies each
thought struct into a fresh cell. On values this is the identity map;
the Go code copies each `Thought` struct by value (the `ParentIndex`
pointer cell is shared by the copy, but no code path ever writes through
it, so it is modelled as an immutable value). -/
def deepCopyThoughts (thoughts : List Thought) : List Thought :=
  thoughts.map (fun t => t)

/-- Models `ThinkingSession.clone` of main.go (lines 82-87): a struct
copy with `deepCopyThoughts` on the thought list and a slice clone of
the branch list. -/
def ThinkingSession.clone (s : ThinkingSession) : ThinkingSession :=
  { s with thoughts := deepCopyThoughts s.thoughts, branches := s.branches }

/-- The sessions map of `SessionStore` (main.go line 101), keyed by
session id. The RWMutex is not modelled: every store operation below is
one serialized critical-section execution; interleavings of the
compare-and-swap loop are modelled separately by `casHistory`. -/
def SessionMap : Type := String → Option ThinkingSession

/-- Map update, modelling the Go map assignment `s.sessions[id] = v`. -/
def insertS (σ : SessionMap) (id : String) (v : ThinkingSession) : SessionMap :=
  fun k => if k = id then some v else σ k

/-- The empty store, modelling `NewSessionStore` (main.go lines 105-109). -/
def emptySessions : SessionMap := fun _ => none

/-- Models `SessionStore.SetSession` (main.go lines 120-124): inserts or
unconditionally overwrites the entry for `session.ID`. -/
def SetSession (σ : SessionMap) (session : ThinkingSession) : SessionMap :=
  insertS σ session.id session

/-- Models `SessionStore.CompareAndSwap` (main.go lines 137-174) run
without interference from concurrent writers: the re-read under the
write lock then finds the same entry with the same version, so the loop
commits on its first iteration. The update closure receives a deep copy
of the current session; Go closures that smuggle extra results out
through captured variables (`branchID`, `branchSession`, `thoughtID`)
are modelled by letting the closure return that extra value of type `β`
next to the updated session. On success the stored session is the
updated value with `version := oldVersion + 1`; on a missing id or a
failing closure the error is returned and the map is untouched. -/
def CompareAndSwap {β : Type} (σ : SessionMap) (sessionID : String)
    (updateFunc : ThinkingSession → Except String (ThinkingSession × β)) :
    Except String β × SessionMap :=
  match σ sessionID with
  | none => (.error ("session " ++ sessionID ++ " not found"), σ)
  | some current =>
    let sessionCopy := current.clone
    let oldVersion := current.version
    match updateFunc sessionCopy with
    | .error e => (.error e, σ)
    | .ok (updated, out) =>
      (.ok out, insertS σ sessionID { updated with version := oldVersion + 1 })

/-- Arguments of the start_thinking tool, modelling `StartThinkingArgs`
(main.go lines 212-216). Omitted optional fields arrive as Go zero
values: empty string and 0. -/
structure StartThinkingArgs where
  problem : String
  sessionId : String
  estimatedSteps : Int
deriving DecidableEq, Repr

/-- Arguments of the continue_thinking tool, modelling
`ContinueThinkingArgs` (main.go lines 219-226). `nextNeeded` and
`reviseStep` are pointers in Go, hence `Option` here; omitted
`createBranch` and `estimatedTotal` arrive as `false` and 0. -/
structure ContinueThinkingArgs where
  sessionId : String
  thought : String
  nextNeeded : Option Bool
  reviseStep : Option Int
  createBranch : Bool
  estimatedTotal : Int
deriving DecidableEq, Repr

/-- Models `StartThinking` (main.go lines 249-281): defaults the id to a
fresh one when empty, defaults the step estimate to 5 when zero, builds
a session with status "active", no thoughts, version 0, and registers it
via `SetSession`. The handler performs no input validation and never
fails, so only the store effect is returned. -/
def startThinking (σ : SessionMap) (args : StartThinkingArgs) (now : Nat)
    (freshId : String) : SessionMap :=
  let sessionID := if args.sessionId = "" then freshId else args.sessionId
  let estimatedSteps := if args.estimatedSteps = 0 then 5 else args.estimatedSteps
  let session : ThinkingSession :=
    { id := sessionID
      problem := args.problem
      thoughts := []
      currentThought := 0
      estimatedTotal := estimatedSteps
      status := "active"
      created := now
      lastActivity := now
      branches := []
      version := 0 }
  SetSession σ session

/-- In-place update of the thought at list position `i`, modelling the Go
field assignments `session.Thoughts[stepIndex].Content = ...` and
`....Revised = true` on the cloned slice. -/
def setThought : List Thought → Nat → (Thought → Thought) → List Thought
  | [], _, _ => []
  | t :: ts, 0, f => f t :: ts
  | t :: ts, i + 1, f => t :: setThought ts i f

/-- The revision closure of `ContinueThinking` (main.go lines 289-299):
validates the 1-based step number against the thought list, then
overwrites that thought content, sets its revised flag and refreshes
`lastActivity`. -/
def reviseClosure (reviseStep : Int) (thoughtText : String) (now : Nat)
    (session : ThinkingSession) : Except String (ThinkingSession × Unit) :=
  let stepIndex := reviseStep - 1
  if stepIndex < 0 ∨ stepIndex ≥ (session.thoughts.length : Int) then
    .error ("invalid step number: " ++ toString reviseStep)
  else
    .ok ({ session with
            thoughts := setThought session.thoughts stepIndex.toNat
              (fun t => { t with content := thoughtText, revised := true })
            lastActivity := now }, ())

/-- The branching closure of `ContinueThinking` (main.go lines 319-338):
computes the branch id from the current branch count, appends it to the
parent branch list, refreshes `lastActivity`, and builds the branch
session over a deep copy of the (unchanged) thought list with status
"active", `currentThought` equal to the thought count and version 0. The
branch id and session escape through captured variables in Go, hence the
extra return component. -/
def branchClosure (sessionId : String) (now : Nat)
    (session : ThinkingSession) :
    Except String (ThinkingSession × (String × ThinkingSession)) :=
  let branchID := sessionId ++ "_branch_" ++ toString (session.branches.length + 1)
  let session := { session with
                    branches := session.branches ++ [branchID]
                    lastActivity := now }
  let thoughtsCopy := deepCopyThoughts session.thoughts
  let branchSession : ThinkingSession :=
    { id := branchID
      problem := session.problem ++ " (Alternative branch)"
      thoughts := thoughtsCopy
      currentThought := (session.thoughts.length : Int)
      estimatedTotal := session.estimatedTotal
      status := "active"
      created := now
      lastActivity := now
      branches := []
      version := 0 }
  .ok (session, (branchID, branchSession))

/-- The append closure of `ContinueThinking` (main.go lines 361-397):
appends a fresh thought numbered `len(thoughts) + 1`, moves
`currentThought` to it, refreshes `lastActivity`, adopts a positive
caller-supplied estimate, and completes the session when the caller
passed `nextNeeded = false` explicitly. The captured `thoughtID` is the
extra return component; the progress strings are presentation only. -/
def appendClosure (args : ContinueThinkingArgs) (now : Nat)
    (session : ThinkingSession) : Except String (ThinkingSession × Int) :=
  let thoughtID : Int := (session.thoughts.length : Int) + 1
  let thought : Thought :=
    { index := thoughtID
      content := args.thought
      created := now
      revised := false
      parentIndex := none }
  let session := { session with
                    thoughts := session.thoughts ++ [thought]
                    currentThought := thoughtID
                    lastActivity := now }
  let session :=
    if args.estimatedTotal > 0 then
      { session with estimatedTotal := args.estimatedTotal }
    else session
  let session :=
    if args.nextNeeded = some false then
      { session with status := "completed" }
    else session
  .ok (session, thoughtID)

/-- Models `ContinueThinking` (main.go lines 284-410): a set
`reviseStep` takes precedence and only revises; otherwise `createBranch`
creates a branch (a compare-and-swap on the parent followed by an
independent `SetSession` of the branch session); otherwise a thought is
appended. Returns the outcome and the updated store. -/
def continueThinking (σ : SessionMap) (args : ContinueThinkingArgs)
    (now : Nat) : Except String Unit × SessionMap :=
  match args.reviseStep with
  | some step =>
    match CompareAndSwap σ args.sessionId (reviseClosure step args.thought now) with
    | (.error e, σ1) => (.error e, σ1)
    | (.ok _, σ1) => (.ok (), σ1)
  | none =>
    if args.createBranch then
      match CompareAndSwap σ args.sessionId (branchClosure args.sessionId now) with
      | (.error e, σ1) => (.error e, σ1)
      | (.ok (_, branchSession), σ1) => (.ok (), SetSession σ1 branchSession)
    else
      match CompareAndSwap σ args.sessionId (appendClosure args now) with
      | (.error e, σ1) => (.error e, σ1)
      | (.ok _, σ1) => (.ok (), σ1)

/-! ### Interleaved executions of the compare-and-swap loop

`CompareAndSwap` above gives the sequential semantics of one call. To
reason about N concurrent calls against the same session id, the
write-locked commit block of the loop (main.go lines 158-172) is the
atomic event: it succeeds exactly when the live version still equals the
baseline read earlier under the read lock, and then stores the mutated
session with `version := baseline + 1`. A concurrent execution is an
arbitrary sequence of such commit attempts; the baseline and the mutated
session an attempt carries are unconstrained, which over-approximates
every possible closure result and read interleaving. -/

/-- One loop iteration arriving at its commit point: the `oldVersion` it
read under the read lock and the session its update closure produced. -/
structure CasAttempt where
  baseline : Int
  updated : ThinkingSession
deriving Repr

/-- The write-locked commit block of `CompareAndSwap` (main.go lines
158-172), restricted to one session id: commit succeeds iff the live
version equals the baseline of the attempt, and then stores the mutated
session with `version := baseline + 1`. -/
def casCommit (s : ThinkingSession) (a : CasAttempt) : ThinkingSession × Bool :=
  if s.version = a.baseline then
    ({ a.updated with version := a.baseline + 1 }, true)
  else
    (s, false)

/-- Runs a serialized sequence of commit attempts (the write lock
serializes them) from a starting session, returning the final session
and, for each successful attempt in order, the pair of its observed
baseline and the version it stored. -/
def casHistory (s : ThinkingSession) : List CasAttempt → ThinkingSession × List (Int × Int)
  | [] => (s, [])
  | a :: rest =>
    let r := casCommit s a
    let r2 := casHistory r.1 rest
    (r2.1, if r.2 then (a.baseline, r.1.version) :: r2.2 else r2.2)

/-! ### Pointer-level store model for read isolation

`SessionStore.Session` returns the `*ThinkingSession` stored in the map
itself, while `SessionStore.SessionSnapshot` returns a fresh clone. To
state what mutating a returned value does to the store, sessions live in
an explicit heap of cells addressed by allocation order, and the map
sends each id to the address of its live instance. -/

/-- The store with explicit session cells: `heap` holds one
`ThinkingSession` value per allocated pointer (the address is the list
position), and `index` is the sessions map, sending an id to the address
of its live instance. -/
structure StoreHeap where
  heap : List ThinkingSession
  index : String → Option Nat

/-- Follows a session pointer. -/
def heapGet (st : StoreHeap) (a : Nat) : Option ThinkingSession :=
  st.heap[a]?

/-- Overwrites the cell at address `a`, modelling a caller mutating a
session object through a pointer it holds. -/
def heapWrite (st : StoreHeap) (a : Nat) (f : ThinkingSession → ThinkingSession) : StoreHeap :=
  { st with heap :=
      match st.heap[a]? with
      | none => st.heap
      | some s => st.heap.set a (f s) }

/-- The empty store with no cells. -/
def emptyHeap : StoreHeap := { heap := [], index := fun _ => none }

/-- Models `SessionStore.SetSession` (main.go lines 120-124) at pointer
level: the caller passes a pointer to a freshly constructed session, so
a new cell is allocated and the map entry for `session.ID` is pointed at
it. -/
def SetSessionHp (st : StoreHeap) (session : ThinkingSession) : StoreHeap :=
  { heap := st.heap ++ [session]
    index := fun k => if k = session.id then some st.heap.length else st.index k }

/-- Models `SessionStore.Session` (main.go lines 112-117): looks the id
up in the map and returns the stored pointer itself, the live instance,
with no copy. -/
def Session (st : StoreHeap) (id : String) : Option Nat :=
  st.index id

/-- Models `SessionStore.SessionSnapshot` (main.go lines 197-207): if
the id is present, returns a pointer to a freshly allocated clone of the
live instance; the map still points at the old cell. -/
def SessionSnapshot (st : StoreHeap) (id : String) : Option Nat × StoreHeap :=
  match st.index id with
  | none => (none, st)
  | some a =>
    match heapGet st a with
    | none => (none, st)
    | some s => (some st.heap.length, { st with heap := st.heap ++ [s.clone] })

/-- What a subsequent read of `id` observes: the value of the live cell
the map points at. -/
def readValue (st : StoreHeap) (id : String) : Option ThinkingSession :=
  (st.index id).bind (heapGet st)

/-- Every address the map hands out is an allocated cell. This holds for
every store reachable through the operations above. -/
def HeapWF (st : StoreHeap) : Prop :=
  ∀ id a, st.index id = some a → a < st.heap.length

/-! ### Basic lemmas about the value-level store -/

/-- Cloning a session value is the identity: the deep copy exists only to
sever pointer sharing, which the value model has none of. -/
theorem ThinkingSession.clone_eq (s : ThinkingSession) : s.clone = s := by
  simp [ThinkingSession.clone, deepCopyThoughts]

theorem insertS_self (σ : SessionMap) (id : String) (v : ThinkingSession) :
    insertS σ id v id = some v := by
  simp [insertS]

theorem insertS_ne (σ : SessionMap) (id k : String) (v : ThinkingSession)
    (h : k ≠ id) : insertS σ id v k = σ k := by
  simp [insertS, h]

theorem setThought_length (ts : List Thought) (i : Nat) (f : Thought → Thought) :
    (setThought ts i f).length = ts.length := by
  induction ts generalizing i with
  | nil => rfl
  | cons t ts ih =>
    cases i with
    | zero => rfl
    | succ j => simp [setThought, ih]

theorem setThought_getD_eq (ts : List Thought) (i : Nat) (f : Thought → Thought)
    (d : Thought) (h : i < ts.length) :
    (setThought ts i f).getD i d = f (ts.getD i d) := by
  induction ts generalizing i with
  | nil => simp at h
  | cons t ts ih =>
    cases i with
    | zero => rfl
    | succ j =>
      simp only [setThought, List.getD_cons_succ]
      exact ih j (by simpa using h)

theorem setThought_getD_ne (ts : List Thought) (i j : Nat) (f : Thought → Thought)
    (d : Thought) (h : j ≠ i) :
    (setThought ts i f).getD j d = ts.getD j d := by
  induction ts generalizing i j with
  | nil => rfl
  | cons t ts ih =>
    cases i with
    | zero =>
      cases j with
      | zero => exact absurd rfl h
      | succ k => rfl
    | succ i2 =>
      cases j with
      | zero => rfl
      | succ k =>
        simp only [setThought, List.getD_cons_succ]
        exact ih i2 k (by omega)

/-! ### The shape of a successful commit log -/

/-- The log a run of commit attempts produces when it starts from
version `v` and `n` of them succeed: each success observes the version
the previous success stored. -/
def rangeLog : Int → Nat → List (Int × Int)
  | _, 0 => []
  | v, n + 1 => (v, v + 1) :: rangeLog (v + 1) n

theorem casHistory_cons_pos (s : ThinkingSession) (a : CasAttempt)
    (l : List CasAttempt) (hv : s.version = a.baseline) :
    casHistory s (a :: l) =
      ((casHistory { a.updated with version := a.baseline + 1 } l).1,
       (a.baseline, a.baseline + 1) ::
         (casHistory { a.updated with version := a.baseline + 1 } l).2) := by
  simp [casHistory, casCommit, hv]

theorem casHistory_cons_neg (s : ThinkingSession) (a : CasAttempt)
    (l : List CasAttempt) (hv : ¬ s.version = a.baseline) :
    casHistory s (a :: l) = casHistory s l := by
  simp [casHistory, casCommit, hv]

theorem casHistory_eq_rangeLog (l : List CasAttempt) (s : ThinkingSession) :
    (casHistory s l).1.version = s.version + ((casHistory s l).2.length : Int) ∧
    (casHistory s l).2 = rangeLog s.version (casHistory s l).2.length := by
  induction l generalizing s with
  | nil => exact ⟨by simp [casHistory], rfl⟩
  | cons a l ih =>
    by_cases hv : s.version = a.baseline
    · obtain ⟨ih1, ih2⟩ := ih { a.updated with version := a.baseline + 1 }
      simp only at ih1 ih2
      rw [casHistory_cons_pos s a l hv]
      refine ⟨?_, ?_⟩
      · simp only [List.length_cons, ih1, hv]
        push_cast
        ring
      · simp only [List.length_cons, hv, rangeLog]
        congr 1
    · obtain ⟨ih1, ih2⟩ := ih s
      rw [casHistory_cons_neg s a l hv]
      exact ⟨ih1, ih2⟩

theorem mem_rangeLog (v : Int) (n : Nat) (p : Int × Int)
    (h : p ∈ rangeLog v n) : v ≤ p.1 ∧ p.2 = p.1 + 1 := by
  induction n generalizing v with
  | zero => simp [rangeLog] at h
  | succ m ih =>
    simp only [rangeLog, List.mem_cons] at h
    rcases h with h | h
    · subst h
      exact ⟨le_refl v, rfl⟩
    · have h2 := ih (v + 1) h
      exact ⟨by omega, h2.2⟩

theorem rangeLog_firsts_pairwise (v : Int) (n : Nat) :
    ((rangeLog v n).map Prod.fst).Pairwise (fun a b => a < b) := by
  induction n generalizing v with
  | zero => simp [rangeLog]
  | succ m ih =>
    simp only [rangeLog, List.map_cons, List.pairwise_cons]
    refine ⟨?_, ih (v + 1)⟩
    intro b hb
    rcases List.mem_map.mp hb with ⟨p, hp, hpb⟩
    have h2 := mem_rangeLog (v + 1) m p hp
    omega

/-! ### Result shapes of the continue_thinking modes

The following definitions name the session values the three modes of
`continueThinking` commit; the lemmas after them prove that running the
embedded handler produces exactly these values. They exist to keep the
claim statements readable and are connected to the handler only through
those lemmas. -/

/-- The session stored by a successful revision of step `n`. -/
def revisedSession (n : Int) (txt : String) (now : Nat) (s : ThinkingSession) :
    ThinkingSession :=
  { s with
      thoughts := setThought s.thoughts (n - 1).toNat
        (fun t => { t with content := txt, revised := true })
      lastActivity := now
      version := s.version + 1 }

/-- The thought a successful append adds to a session. -/
def appendedThought (txt : String) (now : Nat) (s : ThinkingSession) : Thought :=
  { index := (s.thoughts.length : Int) + 1
    content := txt
    created := now
    revised := false
    parentIndex := none }

/-- The session stored by a successful append. -/
def appendedSession (args : ContinueThinkingArgs) (now : Nat)
    (s : ThinkingSession) : ThinkingSession :=
  { s with
      thoughts := s.thoughts ++ [appendedThought args.thought now s]
      currentThought := (s.thoughts.length : Int) + 1
      lastActivity := now
      estimatedTotal := if args.estimatedTotal > 0 then args.estimatedTotal else s.estimatedTotal
      status := if args.nextNeeded = some false then "completed" else s.status
      version := s.version + 1 }

/-- The id a branch operation assigns to the new branch of parent `p`. -/
def branchIdOf (sid : String) (p : ThinkingSession) : String :=
  sid ++ "_branch_" ++ toString (p.branches.length + 1)

/-- The parent session stored by a successful branch operation. -/
def branchedParent (sid : String) (now : Nat) (p : ThinkingSession) :
    ThinkingSession :=
  { p with
      branches := p.branches ++ [branchIdOf sid p]
      lastActivity := now
      version := p.version + 1 }

/-- The branch session a successful branch operation registers. -/
def branchedChild (sid : String) (now : Nat) (p : ThinkingSession) :
    ThinkingSession :=
  { id := branchIdOf sid p
    problem := p.problem ++ " (Alternative branch)"
    thoughts := p.thoughts
    currentThought := (p.thoughts.length : Int)
    estimatedTotal := p.estimatedTotal
    status := "active"
    created := now
    lastActivity := now
    branches := []
    version := 0 }

/-! ### Computation lemmas for the handlers -/

theorem continueThinking_notFound (σ : SessionMap) (args : ContinueThinkingArgs)
    (now : Nat) (hs : σ args.sessionId = none) :
    continueThinking σ args now =
      (.error ("session " ++ args.sessionId ++ " not found"), σ) := by
  rcases hrev : args.reviseStep with _ | n <;>
    rcases hbr : args.createBranch <;>
      simp [continueThinking, CompareAndSwap, hrev, hbr, hs]

theorem continueThinking_revise_ok (σ : SessionMap) (args : ContinueThinkingArgs)
    (now : Nat) (n : Int) (s : ThinkingSession)
    (hrev : args.reviseStep = some n) (hs : σ args.sessionId = some s)
    (h1 : 1 ≤ n) (h2 : n ≤ (s.thoughts.length : Int)) :
    continueThinking σ args now =
      (.ok (), insertS σ args.sessionId (revisedSession n args.thought now s)) := by
  have hc1 : ¬ n < 1 := by omega
  have hc2 : ¬ (s.thoughts.length : Int) ≤ n - 1 := by omega
  simp [continueThinking, hrev, CompareAndSwap, hs, reviseClosure,
    ThinkingSession.clone_eq, hc1, hc2, revisedSession]

theorem continueThinking_revise_err (σ : SessionMap) (args : ContinueThinkingArgs)
    (now : Nat) (n : Int) (s : ThinkingSession)
    (hrev : args.reviseStep = some n) (hs : σ args.sessionId = some s)
    (h : ¬ (1 ≤ n ∧ n ≤ (s.thoughts.length : Int))) :
    continueThinking σ args now =
      (.error ("invalid step number: " ++ toString n), σ) := by
  have hc : n < 1 ∨ (s.thoughts.length : Int) ≤ n - 1 := by omega
  simp [continueThinking, hrev, CompareAndSwap, hs, reviseClosure,
    ThinkingSession.clone_eq, hc]

theorem continueThinking_append_ok (σ : SessionMap) (args : ContinueThinkingArgs)
    (now : Nat) (s : ThinkingSession)
    (hrev : args.reviseStep = none) (hbr : args.createBranch = false)
    (hs : σ args.sessionId = some s) :
    continueThinking σ args now =
      (.ok (), insertS σ args.sessionId (appendedSession args now s)) := by
  by_cases h1 : args.estimatedTotal > 0 <;> by_cases h2 : args.nextNeeded = some false <;>
    simp [continueThinking, hrev, hbr, CompareAndSwap, hs, appendClosure,
      ThinkingSession.clone_eq, h1, h2, appendedSession, appendedThought]

theorem continueThinking_branch_ok (σ : SessionMap) (args : ContinueThinkingArgs)
    (now : Nat) (p : ThinkingSession)
    (hrev : args.reviseStep = none) (hbr : args.createBranch = true)
    (hp : σ args.sessionId = some p) :
    continueThinking σ args now =
      (.ok (), insertS (insertS σ args.sessionId (branchedParent args.sessionId now p))
        (branchIdOf args.sessionId p) (branchedChild args.sessionId now p)) := by
  simp [continueThinking, hrev, hbr, CompareAndSwap, hp, branchClosure,
    ThinkingSession.clone_eq, SetSession, branchedParent, branchedChild,
    branchIdOf, deepCopyThoughts]

theorem continueThinking_append_other (σ : SessionMap)
    (args : ContinueThinkingArgs) (now : Nat) (k : String)
    (hrev : args.reviseStep = none) (hbr : args.createBranch = false)
    (hk : k ≠ args.sessionId) :
    (continueThinking σ args now).2 k = σ k := by
  rcases hs : σ args.sessionId with _ | s
  · rw [continueThinking_notFound σ args now hs]
  · rw [continueThinking_append_ok σ args now s hrev hbr hs]
    exact insertS_ne σ args.sessionId k _ hk

/-- A parent id never equals the id of one of its branches: the branch
id strictly extends it. -/
theorem ne_branchIdOf (sid : String) (p : ThinkingSession) :
    sid ≠ branchIdOf sid p := by
  intro h
  have hlen := congrArg String.length h
  rw [branchIdOf, String.length_append, String.length_append] at hlen
  have h8 : ("_branch_" : String).length = 8 := rfl
  omega

/-! ### Concrete fixtures used by the witnesses and counterexamples -/

/-- A fresh session as the start operation builds it. -/
def sessA : ThinkingSession :=
  { id := "s", problem := "plan a trip", thoughts := [], currentThought := 0,
    estimatedTotal := 3, status := "active", created := 0, lastActivity := 0,
    branches := [], version := 0 }

def thoughtA : Thought :=
  { index := 1, content := "a", created := 0, revised := false, parentIndex := none }

def thoughtB : Thought :=
  { index := 2, content := "b", created := 0, revised := false, parentIndex := none }

def thoughtC : Thought :=
  { index := 3, content := "c", created := 0, revised := false, parentIndex := none }

/-- A session holding the two thoughts "a" and "b", at version 3. -/
def sessAB : ThinkingSession :=
  { id := "s", problem := "p", thoughts := [thoughtA, thoughtB], currentThought := 2,
    estimatedTotal := 5, status := "active", created := 0, lastActivity := 0,
    branches := [], version := 3 }

/-- A session holding three thoughts. -/
def sess3 : ThinkingSession :=
  { id := "s", problem := "p", thoughts := [thoughtA, thoughtB, thoughtC],
    currentThought := 3, estimatedTotal := 5, status := "active", created := 0,
    lastActivity := 0, branches := [], version := 3 }

/-- A store holding only `sessAB` under id "s". -/
def sessionsAB : SessionMap := insertS emptySessions "s" sessAB

/-- A store holding only `sess3` under id "s". -/
def sessions3 : SessionMap := insertS emptySessions "s" sess3

/-! ### Claims -/

/-- C1. No lost updates: over any serialized sequence of commit attempts
of concurrent continue/revise operations against one stored session (the
write lock serializes the commit blocks; baselines and mutated values
are arbitrary), the final version equals the initial version plus the
number of attempts that succeed, no two successful attempts observed the
same baseline, and every successful attempt stored version = baseline + 1. -/
theorem C1_no_lost_updates (s : ThinkingSession) (l : List CasAttempt) :
    (casHistory s l).1.version = s.version + ((casHistory s l).2.length : Int) ∧
    ((casHistory s l).2.map Prod.fst).Pairwise (fun a b => a ≠ b) ∧
    ∀ p ∈ (casHistory s l).2, p.2 = p.1 + 1 := by
  obtain ⟨h1, h2⟩ := casHistory_eq_rangeLog l s
  refine ⟨h1, ?_, ?_⟩
  · rw [h2]
    exact (rangeLog_firsts_pairwise _ _).imp (fun h => ne_of_lt h)
  · intro p hp
    rw [h2] at hp
    exact (mem_rangeLog _ _ p hp).2

/-- Witness for C1 at a concrete three-attempt history (success, version
conflict, success): the final version is the initial version plus the
number of successes, here 2. -/
theorem C1_witness :
    (casHistory sessA [⟨0, sessA⟩, ⟨0, sessA⟩, ⟨1, sessA⟩]).1.version =
      sessA.version +
        ((casHistory sessA [⟨0, sessA⟩, ⟨0, sessA⟩, ⟨1, sessA⟩]).2.length : Int) ∧
    (casHistory sessA [⟨0, sessA⟩, ⟨0, sessA⟩, ⟨1, sessA⟩]).1.version = 2 :=
  ⟨(C1_no_lost_updates sessA [⟨0, sessA⟩, ⟨0, sessA⟩, ⟨1, sessA⟩]).1, by decide⟩

/-- C3. Mutation atomicity on failure: a compareAndSwap whose mutate
function fails propagates that failure with no store write (the map is
returned exactly as it was, version included), and in general every
compareAndSwap either commits fully (the mutated session stored with
version + 1) or changes nothing about the stored map. -/
theorem C3_cas_atomicity {β : Type} (σ : SessionMap) (id : String)
    (u : ThinkingSession → Except String (ThinkingSession × β))
    (cur : ThinkingSession) (e : String)
    (hcur : σ id = some cur) (herr : u cur.clone = .error e) :
    CompareAndSwap σ id u = (.error e, σ) ∧
    ∀ (σ2 : SessionMap) (u2 : ThinkingSession → Except String (ThinkingSession × β)),
      (∃ e2, (CompareAndSwap σ2 id u2).1 = .error e2 ∧
        (CompareAndSwap σ2 id u2).2 = σ2) ∨
      (∃ cur2 upd2 out2, σ2 id = some cur2 ∧ u2 cur2.clone = .ok (upd2, out2) ∧
        (CompareAndSwap σ2 id u2).1 = .ok out2 ∧
        (CompareAndSwap σ2 id u2).2 =
          insertS σ2 id { upd2 with version := cur2.version + 1 }) := by
  constructor
  · simp [CompareAndSwap, hcur, herr]
  · intro σ2 u2
    rcases h2 : σ2 id with _ | cur2
    · exact Or.inl ⟨"session " ++ id ++ " not found",
        by simp [CompareAndSwap, h2], by simp [CompareAndSwap, h2]⟩
    · rcases h3 : u2 cur2.clone with e2 | ⟨upd2, out2⟩
      · exact Or.inl ⟨e2, by simp [CompareAndSwap, h2, h3],
          by simp [CompareAndSwap, h2, h3]⟩
      · exact Or.inr ⟨cur2, upd2, out2, rfl, h3,
          by simp [CompareAndSwap, h2, h3], by simp [CompareAndSwap, h2, h3]⟩

/-- Witness for C3: a failing mutation against the store holding
`sessAB` propagates its failure and returns the store unchanged. -/
theorem C3_witness :
    CompareAndSwap sessionsAB "s"
        (fun _ => (.error "mutate failed" : Except String (ThinkingSession × Unit))) =
      (.error "mutate failed", sessionsAB) :=
  (C3_cas_atomicity sessionsAB "s"
    (fun _ => (.error "mutate failed" : Except String (ThinkingSession × Unit)))
    sessAB "mutate failed" (by decide) rfl).1

/-- Revision arguments used by the C4 witness: revise step 1 of session
"s" to the text "x". -/
def argsRev : ContinueThinkingArgs :=
  { sessionId := "s", thought := "x", nextNeeded := none, reviseStep := some 1,
    createBranch := false, estimatedTotal := 0 }

/-- C4. Revise correctness: with `reviseStep = n`, if `1 <= n <=
len(thoughts)` the operation commits exactly the revised session (the
selected thought gets the supplied content and its revised flag, every
other thought is untouched, `lastActivity` is refreshed, version + 1);
otherwise it fails with the invalid-step error and the store, version
included, is exactly what it was. -/
theorem C4_revise (σ : SessionMap) (args : ContinueThinkingArgs) (now : Nat)
    (n : Int) (s : ThinkingSession)
    (hrev : args.reviseStep = some n) (hs : σ args.sessionId = some s) :
    (1 ≤ n ∧ n ≤ (s.thoughts.length : Int) →
      continueThinking σ args now =
        (.ok (), insertS σ args.sessionId (revisedSession n args.thought now s))) ∧
    (¬ (1 ≤ n ∧ n ≤ (s.thoughts.length : Int)) →
      continueThinking σ args now =
        (.error ("invalid step number: " ++ toString n), σ)) ∧
    (1 ≤ n → n ≤ (s.thoughts.length : Int) →
      (revisedSession n args.thought now s).thoughts.getD (n - 1).toNat default =
        { s.thoughts.getD (n - 1).toNat default with
            content := args.thought, revised := true }) ∧
    (∀ j, j ≠ (n - 1).toNat →
      (revisedSession n args.thought now s).thoughts.getD j default =
        s.thoughts.getD j default) := by
  refine ⟨?_, ?_, ?_, ?_⟩
  · rintro ⟨h1, h2⟩
    exact continueThinking_revise_ok σ args now n s hrev hs h1 h2
  · intro h
    exact continueThinking_revise_err σ args now n s hrev hs h
  · intro h1 h2
    have hlt : (n - 1).toNat < s.thoughts.length := by omega
    simp only [revisedSession]
    rw [setThought_getD_eq _ _ _ _ hlt]
  · intro j hj
    simp only [revisedSession]
    rw [setThought_getD_ne _ _ _ _ _ hj]

/-- Witness for C4: revising step 1 of the two-thought session commits
the revised session, and step 1 is in range. -/
theorem C4_witness :
    (1 ≤ (1 : Int) ∧ (1 : Int) ≤ (sessAB.thoughts.length : Int)) ∧
    continueThinking sessionsAB argsRev 7 =
      (.ok (), insertS sessionsAB "s" (revisedSession 1 "x" 7 sessAB)) :=
  ⟨⟨by decide, by decide⟩,
    (C4_revise sessionsAB argsRev 7 1 sessAB rfl (by decide)).1 ⟨by decide, by decide⟩⟩

/-- Append arguments used by the C5 witness: add the thought "book
flight" and signal that no further thought is needed. -/
def argsApp : ContinueThinkingArgs :=
  { sessionId := "s", thought := "book flight", nextNeeded := some false,
    reviseStep := none, createBranch := false, estimatedTotal := 0 }

/-- C5. Continue (append) postcondition: with `reviseStep` unset and
`createBranch` false, the operation commits the appended session: a new
thought with index `len(thoughts) + 1` is appended, `currentThought`
moves to it, `lastActivity` is refreshed, `estimatedTotal` is replaced
exactly when the caller supplied a positive value, and the status of an
active session becomes "completed" exactly when the caller passed
`nextNeeded = false` explicitly, staying "active" otherwise. -/
theorem C5_append (σ : SessionMap) (args : ContinueThinkingArgs) (now : Nat)
    (s : ThinkingSession)
    (hrev : args.reviseStep = none) (hbr : args.createBranch = false)
    (hs : σ args.sessionId = some s) (hactive : s.status = "active") :
    continueThinking σ args now =
      (.ok (), insertS σ args.sessionId (appendedSession args now s)) ∧
    (appendedSession args now s).thoughts =
      s.thoughts ++ [appendedThought args.thought now s] ∧
    (appendedThought args.thought now s).index = (s.thoughts.length : Int) + 1 ∧
    (appendedSession args now s).currentThought = (s.thoughts.length : Int) + 1 ∧
    (appendedSession args now s).lastActivity = now ∧
    (appendedSession args now s).estimatedTotal =
      (if args.estimatedTotal > 0 then args.estimatedTotal else s.estimatedTotal) ∧
    (appendedSession args now s).status =
      (if args.nextNeeded = some false then "completed" else "active") ∧
    (appendedSession args now s).version = s.version + 1 := by
  refine ⟨continueThinking_append_ok σ args now s hrev hbr hs,
    rfl, rfl, rfl, rfl, rfl, ?_, rfl⟩
  simp [appendedSession, hactive]

/-- Witness for C5: appending "book flight" with `nextNeeded = false` to
the two-thought active session commits the appended session, which has
three thoughts and status "completed". -/
theorem C5_witness :
    continueThinking sessionsAB argsApp 9 =
      (.ok (), insertS sessionsAB "s" (appendedSession argsApp 9 sessAB)) ∧
    (appendedSession argsApp 9 sessAB).status = "completed" ∧
    (appendedSession argsApp 9 sessAB).thoughts.length = 3 :=
  ⟨(C5_append sessionsAB argsApp 9 sessAB rfl rfl (by decide) rfl).1,
   (C5_append sessionsAB argsApp 9 sessAB rfl rfl (by decide) rfl).2.2.2.2.2.2.1,
   by decide⟩

/-- Branch arguments used by the C7 witness. -/
def argsBr : ContinueThinkingArgs :=
  { sessionId := "s", thought := "alt", nextNeeded := none, reviseStep := none,
    createBranch := true, estimatedTotal := 0 }

/-- Append arguments used by the C7 witness to extend the parent after
branching. -/
def argsApp4 : ContinueThinkingArgs :=
  { sessionId := "s", thought := "d", nextNeeded := none, reviseStep := none,
    createBranch := false, estimatedTotal := 0 }

/-- C7. Branch correctness and isolation: branching parent `p` succeeds,
the branch id is `parentId ++ "_branch_" ++ (branchCount + 1)`, the
registered branch session carries a copy of the parent thought sequence,
status "active" and `currentThought` equal to the parent thought count,
the stored parent gains exactly the branch id in its branch list; and
afterwards appending a thought to the parent never changes the stored
branch session, nor does appending to the branch change the stored
parent. -/
theorem C7_branch (σ : SessionMap) (args : ContinueThinkingArgs) (now : Nat)
    (p : ThinkingSession)
    (hrev : args.reviseStep = none) (hbr : args.createBranch = true)
    (hp : σ args.sessionId = some p) :
    (continueThinking σ args now).1 = .ok () ∧
    branchIdOf args.sessionId p =
      args.sessionId ++ "_branch_" ++ toString (p.branches.length + 1) ∧
    (continueThinking σ args now).2 (branchIdOf args.sessionId p) =
      some (branchedChild args.sessionId now p) ∧
    (branchedChild args.sessionId now p).thoughts = p.thoughts ∧
    (branchedChild args.sessionId now p).status = "active" ∧
    (branchedChild args.sessionId now p).currentThought = (p.thoughts.length : Int) ∧
    (continueThinking σ args now).2 args.sessionId =
      some (branchedParent args.sessionId now p) ∧
    (branchedParent args.sessionId now p).branches =
      p.branches ++ [branchIdOf args.sessionId p] ∧
    (∀ (args2 : ContinueThinkingArgs) (now2 : Nat),
      args2.reviseStep = none → args2.createBranch = false →
      args2.sessionId = args.sessionId →
      (continueThinking (continueThinking σ args now).2 args2 now2).2
          (branchIdOf args.sessionId p) =
        (continueThinking σ args now).2 (branchIdOf args.sessionId p)) ∧
    (∀ (args3 : ContinueThinkingArgs) (now3 : Nat),
      args3.reviseStep = none → args3.createBranch = false →
      args3.sessionId = branchIdOf args.sessionId p →
      (continueThinking (continueThinking σ args now).2 args3 now3).2
          args.sessionId =
        (continueThinking σ args now).2 args.sessionId) := by
  have hrun := continueThinking_branch_ok σ args now p hrev hbr hp
  have hne : args.sessionId ≠ branchIdOf args.sessionId p :=
    ne_branchIdOf args.sessionId p
  refine ⟨by rw [hrun], rfl, ?_, rfl, rfl, rfl, ?_, rfl, ?_, ?_⟩
  · rw [hrun]
    exact insertS_self _ _ _
  · rw [hrun]
    show insertS (insertS σ args.sessionId (branchedParent args.sessionId now p))
      (branchIdOf args.sessionId p) (branchedChild args.sessionId now p)
      args.sessionId = _
    rw [insertS_ne _ _ _ _ hne]
    exact insertS_self _ _ _
  · intro args2 now2 h1 h2 h3
    exact continueThinking_append_other _ args2 now2 _ h1 h2
      (by rw [h3]; exact hne.symm)
  · intro args3 now3 h1 h2 h3
    exact continueThinking_append_other _ args3 now3 _ h1 h2
      (by rw [h3]; exact hne)

/-- Witness for C7: branching the three-thought session registers the
branch session under "s_branch_1" with three thoughts, and appending a
fourth thought to the parent leaves the stored branch unchanged. -/
theorem C7_witness :
    branchIdOf "s" sess3 = "s_branch_1" ∧
    (continueThinking sessions3 argsBr 1).2 (branchIdOf "s" sess3) =
      some (branchedChild "s" 1 sess3) ∧
    (branchedChild "s" 1 sess3).thoughts.length = 3 ∧
    (continueThinking (continueThinking sessions3 argsBr 1).2 argsApp4 2).2
        (branchIdOf "s" sess3) =
      (continueThinking sessions3 argsBr 1).2 (branchIdOf "s" sess3) :=
  ⟨by decide,
   (C7_branch sessions3 argsBr 1 sess3 rfl rfl (by decide)).2.2.1,
   by decide,
   (C7_branch sessions3 argsBr 1 sess3 rfl rfl
      (by decide)).2.2.2.2.2.2.2.2.1 argsApp4 2 rfl rfl rfl⟩

/-- The session the start operation constructs from its arguments. -/
def startedSession (args : StartThinkingArgs) (now : Nat) (freshId : String) :
    ThinkingSession :=
  { id := if args.sessionId = "" then freshId else args.sessionId
    problem := args.problem
    thoughts := []
    currentThought := 0
    estimatedTotal := if args.estimatedSteps = 0 then 5 else args.estimatedSteps
    status := "active"
    created := now
    lastActivity := now
    branches := []
    version := 0 }

/-- C8. Start postcondition: start registers, by unconditional insert or
overwrite under its id, a fresh session with status "active", no
thoughts, version 0, the supplied estimate (default 5 when unspecified)
and the supplied id (a fresh one when unspecified); whatever was stored
under that id before, the subsequent read returns the new session. -/
theorem C8_start (σ : SessionMap) (args : StartThinkingArgs) (now : Nat)
    (freshId : String) :
    startThinking σ args now freshId =
      insertS σ (startedSession args now freshId).id
        (startedSession args now freshId) ∧
    startThinking σ args now freshId (startedSession args now freshId).id =
      some (startedSession args now freshId) ∧
    (startedSession args now freshId).status = "active" ∧
    (startedSession args now freshId).thoughts = [] ∧
    (startedSession args now freshId).version = 0 ∧
    (startedSession args now freshId).estimatedTotal =
      (if args.estimatedSteps = 0 then 5 else args.estimatedSteps) ∧
    (startedSession args now freshId).id =
      (if args.sessionId = "" then freshId else args.sessionId) := by
  refine ⟨rfl, ?_, rfl, rfl, rfl, rfl, rfl⟩
  simp [startThinking, SetSession, insertS, startedSession]

/-- Witness for C8: starting with an explicit estimate of 3 and no
explicit id registers a fresh active session under the generated id. -/
theorem C8_witness :
    startThinking emptySessions
        { problem := "plan a trip", sessionId := "", estimatedSteps := 3 } 0 "fresh"
        (startedSession
          { problem := "plan a trip", sessionId := "", estimatedSteps := 3 } 0 "fresh").id =
      some (startedSession
        { problem := "plan a trip", sessionId := "", estimatedSteps := 3 } 0 "fresh") ∧
    (startedSession
      { problem := "plan a trip", sessionId := "", estimatedSteps := 3 } 0 "fresh").estimatedTotal = 3 :=
  ⟨(C8_start emptySessions
      { problem := "plan a trip", sessionId := "", estimatedSteps := 3 } 0 "fresh").2.1,
   by decide⟩

/-- C9 as stated is false on the code: the start handler performs no
input validation, so a start invocation with empty problem text and a
negative step count does not fail and does not leave the store
unmodified; it registers a session under the requested id. -/
theorem C9_counterexample :
    startThinking emptySessions
        { problem := "", sessionId := "s", estimatedSteps := -1 } 0 "fresh" "s" ≠
      emptySessions "s" := by
  decide

/-- C9 (amended). Start never rejects its input: even when the problem
text is empty or the step count is non-positive, the operation succeeds
and registers the session (a zero step count defaults to 5; any other
value, negative included, is stored as supplied; the problem text is
stored as supplied). -/
theorem C9_amended (σ : SessionMap) (args : StartThinkingArgs) (now : Nat)
    (freshId : String) (h : args.problem = "" ∨ args.estimatedSteps ≤ 0) :
    startThinking σ args now freshId (startedSession args now freshId).id =
      some (startedSession args now freshId) ∧
    (startedSession args now freshId).problem = args.problem := by
  refine ⟨?_, rfl⟩
  simp [startThinking, SetSession, insertS, startedSession]

/-- Witness for C9 (amended): the invalid invocation of the
counterexample indeed registers its session. -/
theorem C9_witness :
    (("" : String) = "" ∨ (-1 : Int) ≤ 0) ∧
    startThinking emptySessions
        { problem := "", sessionId := "s", estimatedSteps := -1 } 0 "fresh"
        (startedSession
          { problem := "", sessionId := "s", estimatedSteps := -1 } 0 "fresh").id =
      some (startedSession
        { problem := "", sessionId := "s", estimatedSteps := -1 } 0 "fresh") :=
  ⟨Or.inl rfl,
   (C9_amended emptySessions
      { problem := "", sessionId := "s", estimatedSteps := -1 } 0 "fresh"
      (Or.inl rfl)).1⟩

/-! ### Store projections of the handler outcomes -/

theorem continueThinking_notFound_store (σ : SessionMap)
    (args : ContinueThinkingArgs) (now : Nat) (hs : σ args.sessionId = none) :
    (continueThinking σ args now).2 = σ :=
  congrArg Prod.snd (continueThinking_notFound σ args now hs)

theorem continueThinking_revise_ok_store (σ : SessionMap)
    (args : ContinueThinkingArgs) (now : Nat) (n : Int) (s : ThinkingSession)
    (hrev : args.reviseStep = some n) (hs : σ args.sessionId = some s)
    (h1 : 1 ≤ n) (h2 : n ≤ (s.thoughts.length : Int)) :
    (continueThinking σ args now).2 =
      insertS σ args.sessionId (revisedSession n args.thought now s) :=
  congrArg Prod.snd (continueThinking_revise_ok σ args now n s hrev hs h1 h2)

theorem continueThinking_revise_err_store (σ : SessionMap)
    (args : ContinueThinkingArgs) (now : Nat) (n : Int) (s : ThinkingSession)
    (hrev : args.reviseStep = some n) (hs : σ args.sessionId = some s)
    (h : ¬ (1 ≤ n ∧ n ≤ (s.thoughts.length : Int))) :
    (continueThinking σ args now).2 = σ :=
  congrArg Prod.snd (continueThinking_revise_err σ args now n s hrev hs h)

theorem continueThinking_append_store (σ : SessionMap)
    (args : ContinueThinkingArgs) (now : Nat) (s : ThinkingSession)
    (hrev : args.reviseStep = none) (hbr : args.createBranch = false)
    (hs : σ args.sessionId = some s) :
    (continueThinking σ args now).2 =
      insertS σ args.sessionId (appendedSession args now s) :=
  congrArg Prod.snd (continueThinking_append_ok σ args now s hrev hbr hs)

theorem continueThinking_branch_store (σ : SessionMap)
    (args : ContinueThinkingArgs) (now : Nat) (p : ThinkingSession)
    (hrev : args.reviseStep = none) (hbr : args.createBranch = true)
    (hp : σ args.sessionId = some p) :
    (continueThinking σ args now).2 =
      insertS (insertS σ args.sessionId (branchedParent args.sessionId now p))
        (branchIdOf args.sessionId p) (branchedChild args.sessionId now p) :=
  congrArg Prod.snd (continueThinking_branch_ok σ args now p hrev hbr hp)

/-- Revision arguments that agree with `argsRev` on the revision inputs
but differ on every field the revision mode is expected to ignore. -/
def argsRevNoisy : ContinueThinkingArgs :=
  { sessionId := "s", thought := "x", nextNeeded := some false,
    reviseStep := some 1, createBranch := true, estimatedTotal := 9 }

/-- C10. Mode precedence in continue: with `reviseStep` set, the outcome
depends only on the session id, the thought text and the step number
(`createBranch`, `nextNeeded` and `estimatedTotal` are ignored), and the
stored session keeps its thought count, status, branch list and
estimate; with `reviseStep` unset and `createBranch` true, the outcome
depends only on the session id (the thought text, `nextNeeded` and
`estimatedTotal` are ignored), the stored parent keeps its thoughts,
status and estimate, and the registered branch carries exactly the
parent thoughts with nothing appended. -/
theorem C10_mode_precedence :
    (∀ (σ : SessionMap) (args args2 : ContinueThinkingArgs) (now : Nat) (n : Int),
      args.reviseStep = some n → args2.reviseStep = some n →
      args2.sessionId = args.sessionId → args2.thought = args.thought →
      continueThinking σ args now = continueThinking σ args2 now) ∧
    (∀ (σ : SessionMap) (args : ContinueThinkingArgs) (now : Nat) (n : Int)
        (s s2 : ThinkingSession),
      args.reviseStep = some n → σ args.sessionId = some s →
      (continueThinking σ args now).2 args.sessionId = some s2 →
      s2.thoughts.length = s.thoughts.length ∧ s2.status = s.status ∧
      s2.branches = s.branches ∧ s2.estimatedTotal = s.estimatedTotal) ∧
    (∀ (σ : SessionMap) (args args2 : ContinueThinkingArgs) (now : Nat),
      args.reviseStep = none → args.createBranch = true →
      args2.reviseStep = none → args2.createBranch = true →
      args2.sessionId = args.sessionId →
      continueThinking σ args now = continueThinking σ args2 now) ∧
    (∀ (σ : SessionMap) (args : ContinueThinkingArgs) (now : Nat)
        (p : ThinkingSession),
      args.reviseStep = none → args.createBranch = true →
      σ args.sessionId = some p →
      (continueThinking σ args now).2 args.sessionId =
        some (branchedParent args.sessionId now p) ∧
      (branchedParent args.sessionId now p).thoughts = p.thoughts ∧
      (branchedParent args.sessionId now p).status = p.status ∧
      (branchedParent args.sessionId now p).estimatedTotal = p.estimatedTotal ∧
      (continueThinking σ args now).2 (branchIdOf args.sessionId p) =
        some (branchedChild args.sessionId now p) ∧
      (branchedChild args.sessionId now p).thoughts = p.thoughts) := by
  refine ⟨?_, ?_, ?_, ?_⟩
  · intro σ args args2 now n h1 h2 h3 h4
    simp only [continueThinking, h1, h2, h3, h4]
  · intro σ args now n s s2 hrev hs hlook
    by_cases hin : 1 ≤ n ∧ n ≤ (s.thoughts.length : Int)
    · rw [continueThinking_revise_ok_store σ args now n s hrev hs hin.1 hin.2,
        insertS_self] at hlook
      have hs2 := Option.some.inj hlook
      subst hs2
      exact ⟨(setThought_length _ _ _).symm ▸ rfl, rfl, rfl, rfl⟩
    · rw [continueThinking_revise_err_store σ args now n s hrev hs hin, hs] at hlook
      have hs2 := Option.some.inj hlook
      subst hs2
      exact ⟨rfl, rfl, rfl, rfl⟩
  · intro σ args args2 now h1 h2 h3 h4 h5
    simp only [continueThinking, h1, h2, h3, h4, h5, if_true]
  · intro σ args now p hrev hbr hp
    have hrun := continueThinking_branch_store σ args now p hrev hbr hp
    have hne : args.sessionId ≠ branchIdOf args.sessionId p :=
      ne_branchIdOf args.sessionId p
    refine ⟨?_, rfl, rfl, rfl, ?_, rfl⟩
    · rw [hrun, insertS_ne _ _ _ _ hne, insertS_self]
    · rw [hrun, insertS_self]

/-- Witness for C10: two revision invocations that differ in
`createBranch`, `nextNeeded` and `estimatedTotal` but share the revision
inputs produce identical outcomes on the two-thought store. -/
theorem C10_witness :
    continueThinking sessionsAB argsRevNoisy 5 =
      continueThinking sessionsAB argsRev 5 :=
  C10_mode_precedence.1 sessionsAB argsRevNoisy argsRev 5 1 rfl rfl rfl rfl

/-! ### The index invariant -/

/-- Every thought index equals its 1-based position in the sequence. -/
def goodIndices (ts : List Thought) : Prop :=
  ∀ i, i < ts.length → (ts.getD i default).index = (i : Int) + 1

theorem goodIndices_nil : goodIndices [] := by
  intro i h
  simp at h

theorem goodIndices_append (ts : List Thought) (t : Thought)
    (hts : goodIndices ts) (ht : t.index = (ts.length : Int) + 1) :
    goodIndices (ts ++ [t]) := by
  intro i h
  simp only [List.length_append, List.length_cons, List.length_nil] at h
  rcases Nat.lt_or_ge i ts.length with hi | hi
  · rw [List.getD_append ts [t] default i hi]
    exact hts i hi
  · have hieq : i = ts.length := by omega
    subst hieq
    rw [List.getD_append_right]
    · simpa using ht
    · omega

theorem goodIndices_setThought (ts : List Thought) (i : Nat)
    (f : Thought → Thought) (hf : ∀ t, (f t).index = t.index)
    (hts : goodIndices ts) : goodIndices (setThought ts i f) := by
  intro j hj
  rw [setThought_length] at hj
  by_cases hij : j = i
  · subst hij
    rw [setThought_getD_eq _ _ _ _ hj, hf]
    exact hts j hj
  · rw [setThought_getD_ne _ _ _ _ _ hij]
    exact hts j hj

/-- Store states reachable from the empty store through the start and
continue handlers, over arbitrary arguments, times and generated ids. -/
inductive Reachable : SessionMap → Prop
  | empty : Reachable emptySessions
  | start (σ : SessionMap) (args : StartThinkingArgs) (now : Nat) (freshId : String) :
      Reachable σ → Reachable (startThinking σ args now freshId)
  | cont (σ : SessionMap) (args : ContinueThinkingArgs) (now : Nat) :
      Reachable σ → Reachable (continueThinking σ args now).2

/-- C6. Index invariant: every session stored in any store state
reachable through the handlers satisfies `thoughts[i].index = i + 1` at
every valid position; in particular appending K thoughts one by one
keeps every index equal to its 1-based position, and no operation ever
renumbers an existing thought. -/
theorem C6_index_invariant (σ : SessionMap) (h : Reachable σ) :
    ∀ id s, σ id = some s → goodIndices s.thoughts := by
  induction h with
  | empty =>
    intro id s hs
    simp [emptySessions] at hs
  | start σ args now freshId hσ ih =>
    intro id s hs
    simp only [startThinking, SetSession] at hs
    by_cases hid : id = (if args.sessionId = "" then freshId else args.sessionId)
    · rw [insertS, if_pos hid] at hs
      have hs2 := Option.some.inj hs
      subst hs2
      exact goodIndices_nil
    · rw [insertS, if_neg hid] at hs
      exact ih id s hs
  | cont σ args now hσ ih =>
    intro id s hs
    rcases hσid : σ args.sessionId with _ | cur
    · rw [continueThinking_notFound_store σ args now hσid] at hs
      exact ih id s hs
    · rcases hrev : args.reviseStep with _ | n
      · rcases hbr : args.createBranch
        · rw [continueThinking_append_store σ args now cur hrev hbr hσid] at hs
          by_cases hid : id = args.sessionId
          · rw [hid, insertS_self] at hs
            have hs2 := Option.some.inj hs
            subst hs2
            exact goodIndices_append cur.thoughts _ (ih _ _ hσid) rfl
          · rw [insertS_ne _ _ _ _ hid] at hs
            exact ih id s hs
        · rw [continueThinking_branch_store σ args now cur hrev hbr hσid] at hs
          by_cases hid2 : id = branchIdOf args.sessionId cur
          · rw [hid2, insertS_self] at hs
            have hs2 := Option.some.inj hs
            subst hs2
            exact ih args.sessionId cur hσid
          · rw [insertS_ne _ _ _ _ hid2] at hs
            by_cases hid : id = args.sessionId
            · rw [hid, insertS_self] at hs
              have hs2 := Option.some.inj hs
              subst hs2
              exact ih args.sessionId cur hσid
            · rw [insertS_ne _ _ _ _ hid] at hs
              exact ih id s hs
      · by_cases hin : 1 ≤ n ∧ n ≤ (cur.thoughts.length : Int)
        · rw [continueThinking_revise_ok_store σ args now n cur hrev hσid
            hin.1 hin.2] at hs
          by_cases hid : id = args.sessionId
          · rw [hid, insertS_self] at hs
            have hs2 := Option.some.inj hs
            subst hs2
            exact goodIndices_setThought _ _ _ (fun t => rfl) (ih _ _ hσid)
          · rw [insertS_ne _ _ _ _ hid] at hs
            exact ih id s hs
        · rw [continueThinking_revise_err_store σ args now n cur hrev hσid hin] at hs
          exact ih id s hs

/-- Start arguments of the C6 witness. -/
def argsStartQ : StartThinkingArgs :=
  { problem := "q", sessionId := "s", estimatedSteps := 0 }

/-- Append arguments of the C6 witness. -/
def argsT1 : ContinueThinkingArgs :=
  { sessionId := "s", thought := "t1", nextNeeded := none, reviseStep := none,
    createBranch := false, estimatedTotal := 0 }

/-- The store of the C6 witness: start session "s", then append one
thought. -/
def sessionsStartOne : SessionMap :=
  (continueThinking (startThinking emptySessions argsStartQ 0 "f") argsT1 1).2

/-- Witness for C6: the two-step store is reachable, stores one session
under "s", and that session satisfies the index invariant. -/
theorem C6_witness :
    sessionsStartOne "s" =
      some (appendedSession argsT1 1 (startedSession argsStartQ 0 "f")) ∧
    goodIndices (appendedSession argsT1 1 (startedSession argsStartQ 0 "f")).thoughts :=
  ⟨by decide,
   C6_index_invariant sessionsStartOne
     (Reachable.cont _ argsT1 1 (Reachable.start _ argsStartQ 0 "f" Reachable.empty))
     "s" _ (by decide)⟩

/-! ### Read isolation -/

/-- A heap store holding only `sessA`, whose live instance sits in the
cell at address 0. -/
def heap0 : StoreHeap := SetSessionHp emptyHeap sessA

/-- C2 as stated is false on the code: the `Session` accessor returns
the live instance, not a deep copy. The pointer it hands out for id "s"
is the very cell the map references, and mutating the session object
through it (here: overwriting the problem text) changes what a
subsequent read of the same id returns. -/
theorem C2_counterexample :
    Session heap0 "s" = some 0 ∧
    readValue (heapWrite heap0 0 (fun s => { s with problem := "mutated" })) "s" ≠
      readValue heap0 "s" := by
  constructor
  · decide
  · decide

/-- C2 (amended). The deep-copy read path is `SessionSnapshot` (used by
the review and history handlers), not `Session`: a snapshot allocates a
fresh copy of the stored session, the copy equals the stored value, and
mutating the copy never changes what a subsequent read of any id
returns; the `Session` accessor instead exposes the live instance. -/
theorem C2_snapshot_isolated (st : StoreHeap) (id : String) (a : Nat)
    (st2 : StoreHeap) (hwf : HeapWF st)
    (hsnap : SessionSnapshot st id = (some a, st2)) :
    heapGet st2 a = readValue st id ∧
    ∀ (f : ThinkingSession → ThinkingSession) (j : String),
      readValue (heapWrite st2 a f) j = readValue st j := by
  rcases hidx : st.index id with _ | a0
  · simp only [SessionSnapshot, hidx] at hsnap
    exact absurd (congrArg Prod.fst hsnap) (by simp)
  · rcases hget : heapGet st a0 with _ | s0
    · exfalso
      have hlt := hwf id a0 hidx
      rw [heapGet, List.getElem?_eq_none_iff] at hget
      omega
    · simp only [SessionSnapshot, hidx, hget] at hsnap
      have ha := Option.some.inj (congrArg Prod.fst hsnap)
      have hst2 := congrArg Prod.snd hsnap
      subst ha
      subst hst2
      have hs0 : s0.clone = s0 := ThinkingSession.clone_eq s0
      constructor
      · show ((st.heap ++ [s0.clone])[st.heap.length]?) = readValue st id
        rw [List.getElem?_concat_length, hs0, readValue, hidx]
        simp [hget]
      · intro f j
        have hcell : (st.heap ++ [s0.clone])[st.heap.length]? = some s0.clone :=
          List.getElem?_concat_length _ _
        rcases hj : st.index j with _ | b
        · simp [readValue, heapWrite, hj]
        · have hb := hwf j b hj
          have hne : st.heap.length ≠ b := by omega
          simp only [readValue, heapWrite, hj, Option.bind_some, heapGet, hcell]
          show ((st.heap ++ [s0.clone]).set st.heap.length (f s0.clone))[b]? = _
          rw [List.getElem?_set_ne hne, List.getElem?_append_left hb]
          rfl

/-- The map of `heap0` only references its single allocated cell. -/
theorem heap0_wf : HeapWF heap0 := by
  intro id a h
  by_cases hid : id = "s"
  · simp [heap0, SetSessionHp, emptyHeap, sessA, hid] at h ⊢
    omega
  · simp [heap0, SetSessionHp, emptyHeap, sessA, hid] at h

/-- The heap store after taking a snapshot of "s" from `heap0`: the
clone sits in the fresh cell at address 1. -/
def heapSnap : StoreHeap := (SessionSnapshot heap0 "s").2

/-- Witness for C2 (amended): mutating the snapshot copy, which lives at
address 1, leaves a subsequent read of "s" unchanged. -/
theorem C2_witness :
    readValue (heapWrite heapSnap 1 (fun s => { s with problem := "mutated" })) "s" =
      readValue heap0 "s" :=
  (C2_snapshot_isolated heap0 "s" 1 heapSnap heap0_wf rfl).2
    (fun s => { s with problem := "mutated" }) "s"
